import Mathlib

/-!
Verification of the query-options model, SQL clause composer and
multi-valued field decoder of the kaliber repository.

The Go sources are shallowly embedded: Go strings are Lean `String`
(a list of unicode scalar values; the embedded functions treat them
rune-wise exactly as the Go originals do on valid UTF-8 input), Go
`uint`/`uint8` values are `Nat` with explicit range conditions where
the width matters, Go `int` values are `Int`.  The relevant behaviour
of the Go standard library (`fmt.Sprintf`/`fmt.Sscanf` with the
pattern used by `TQueryOptions.String`/`Scan`, `strconv.Atoi`,
`strings.Split`/`SplitN`/`TrimSpace`) is embedded alongside the
repository functions.
-/

set_option maxRecDepth 16384
set_option autoImplicit false

/-! ## Decimal printing and scanning (Go `%d` of `fmt`) -/

/-- The character of a single decimal digit. -/

def digitChar (n : Nat) : Char :=
  Char.ofNat (48 + n)

/-- Decimal digit test, as in Go's numeric scanners. -/

def isGoDigit (c : Char) : Bool :=
  decide (48 ≤ c.toNat ∧ c.toNat ≤ 57)

/-- Numeric value of a decimal digit character. -/

def digitVal (c : Char) : Nat :=
  c.toNat - 48

/-- Fueled decimal printer; the fuel is only there to make the
recursion structural so that the kernel can evaluate it. -/

def natDecFuel : Nat → Nat → List Char
  | 0, _ => []
  | fuel + 1, n =>
    if n < 10 then [digitChar n]
    else natDecFuel fuel (n / 10) ++ [digitChar (n % 10)]

/-- Decimal representation of a natural number, most significant digit
first, as produced by Go's `%d` verb for unsigned values. -/

def natDec (n : Nat) : List Char :=
  natDecFuel (n + 1) n

/-- Accumulating decimal value of a digit string, as a left fold. -/

def decValFrom (acc : Nat) (l : List Char) : Nat :=
  l.foldl (fun a c => 10 * a + digitVal c) acc

/-! ## Scanning primitives of `fmt.Sscanf`

Each `%` verb of `fmt` (except `%c`) first discards leading white
space and then reads a maximal token.  `goIsSpace` is exact on the
Latin-1 range of `unicode.IsSpace`; serialized query options never
contain raw white space at a field boundary, so the approximation on
exotic spaces is inert. -/

/-- White-space test used by the scanner. -/

def goIsSpace (c : Char) : Bool :=
  decide (c.toNat = 0x20 ∨ (0x9 ≤ c.toNat ∧ c.toNat ≤ 0xd) ∨ c.toNat = 0x85 ∨ c.toNat = 0xa0)

/-- Discard leading white space. -/

def skipSpace (l : List Char) : List Char :=
  l.dropWhile goIsSpace

/-- Match one literal character of the format string. -/

def pLit (c : Char) : List Char → Option (List Char)
  | [] => none
  | x :: rest => if x = c then some rest else none

/-- Read a maximal run of decimal digits and return its value. -/

def pNatDigits (l : List Char) : Option (Nat × List Char) :=
  if l.takeWhile isGoDigit = [] then none
  else some (decValFrom 0 (l.takeWhile isGoDigit), l.dropWhile isGoDigit)

/-- Scan an unsigned decimal (`%d` into a Go unsigned integer of the
given exclusive bound); out-of-range values are a scan error. -/

def pUint (bound : Nat) (l : List Char) : Option (Nat × List Char) :=
  match pNatDigits (skipSpace l) with
  | none => none
  | some (v, rest) => if v < bound then some (v, rest) else none

/-- Scan a signed decimal (`%d` into a Go `int`, 64 bits wide). -/

def pInt (l : List Char) : Option (Int × List Char) :=
  match skipSpace l with
  | [] => none
  | c :: rest =>
    if c = '-' then
      match pNatDigits rest with
      | none => none
      | some (v, rest') => if v ≤ 2 ^ 63 then some (-(v : Int), rest') else none
    else if c = '+' then
      match pNatDigits rest with
      | none => none
      | some (v, rest') => if v < 2 ^ 63 then some ((v : Int), rest') else none
    else
      match pNatDigits (c :: rest) with
      | none => none
      | some (v, rest') => if v < 2 ^ 63 then some ((v : Int), rest') else none

/-- Scan `%t`.  Go additionally accepts the other spellings of
`strconv.ParseBool`; only the two literals below are ever produced by
the serializer, whose output is what `Scan` consumes. -/

def pBool (l : List Char) : Option (Bool × List Char) :=
  match skipSpace l with
  | 't' :: 'r' :: 'u' :: 'e' :: rest => some (true, rest)
  | 'f' :: 'a' :: 'l' :: 's' :: 'e' :: rest => some (false, rest)
  | _ => none

/-- Formatting of `%t`. -/

def boolChars (b : Bool) : List Char :=
  if b then ['t', 'r', 'u', 'e'] else ['f', 'a', 'l', 's', 'e']

/-- Formatting of `%d` for a Go `int`. -/

def intDec (i : Int) : List Char :=
  if i < 0 then '-' :: natDec i.natAbs else natDec i.toNat

/-! ## Go quoting (`%q` of `fmt`, i.e. `strconv.Quote`/`Unquote`) -/

/-- Printability test of `strconv.Quote`.  Exact on ASCII; Go's
`unicode.IsPrint` tables for the non-ASCII planes are approximated as
printable, which only changes the escape chosen for exotic runes and
never the quote/unquote round trip. -/

def goIsPrint (c : Char) : Bool :=
  decide (0x20 ≤ c.toNat ∧ c.toNat ≠ 0x7f)

/-- Lower-case hexadecimal digit, as used by Go's quote escapes. -/

def hexChar (n : Nat) : Char :=
  Char.ofNat (if n < 10 then 48 + n else 87 + n)

/-- Value of a hexadecimal digit character (`strconv.unhex`). -/

def hexVal (c : Char) : Option Nat :=
  if 48 ≤ c.toNat ∧ c.toNat ≤ 57 then some (c.toNat - 48)
  else if 97 ≤ c.toNat ∧ c.toNat ≤ 102 then some (c.toNat - 87)
  else if 65 ≤ c.toNat ∧ c.toNat ≤ 70 then some (c.toNat - 55)
  else none

/-- Escape sequence `strconv.Quote` produces for one rune. -/

def goQuoteChar (c : Char) : List Char :=
  if c = '"' ∨ c = '\\' then ['\\', c]
  else if goIsPrint c then [c]
  else if c = '\x07' then ['\\', 'a']
  else if c = '\x08' then ['\\', 'b']
  else if c = '\x0c' then ['\\', 'f']
  else if c = '\n' then ['\\', 'n']
  else if c = '\r' then ['\\', 'r']
  else if c = '\t' then ['\\', 't']
  else if c = '\x0b' then ['\\', 'v']
  else ['\\', 'x', hexChar (c.toNat / 16 % 16), hexChar (c.toNat % 16)]

/-- The double-quoted form of a string (`strconv.Quote`). -/

def goQuote (s : List Char) : List Char :=
  '"' :: s.flatMap goQuoteChar ++ ['"']

/-- Single-character escapes accepted by `strconv.Unquote` inside a
double-quoted string (a lone `\'` is rejected there). -/

def simpleEsc (e : Char) : Option Char :=
  if e = 'a' then some '\x07'
  else if e = 'b' then some '\x08'
  else if e = 'f' then some '\x0c'
  else if e = 'n' then some '\n'
  else if e = 'r' then some '\r'
  else if e = 't' then some '\t'
  else if e = 'v' then some '\x0b'
  else if e = '\\' then some '\\'
  else if e = '"' then some '"'
  else none

/-- Decode one backslash escape of `strconv.Unquote` (double-quote
context): the input starts right after the backslash; the result is
the decoded character and the remaining input. -/

def unquoteEsc : List Char → Option (Char × List Char)
  | [] => none
  | e :: rest =>
    if e = 'x' then
      match rest with
      | h1 :: h2 :: rest' =>
        match hexVal h1, hexVal h2 with
        | some v1, some v2 => some (Char.ofNat (16 * v1 + v2), rest')
        | _, _ => none
      | _ => none
    else if e = 'u' then
      match rest with
      | a :: b :: c :: d :: rest' =>
        match hexVal a, hexVal b, hexVal c, hexVal d with
        | some va, some vb, some vc, some vd =>
          let v := 4096 * va + 256 * vb + 16 * vc + vd
          if 0xd800 ≤ v ∧ v < 0xe000 then none else some (Char.ofNat v, rest')
        | _, _, _, _ => none
      | _ => none
    else if e = 'U' then
      match rest with
      | a :: b :: c :: d :: a2 :: b2 :: c2 :: d2 :: rest' =>
        match hexVal a, hexVal b, hexVal c, hexVal d,
            hexVal a2, hexVal b2, hexVal c2, hexVal d2 with
        | some va, some vb, some vc, some vd, some va2, some vb2, some vc2, some vd2 =>
          let v := 268435456 * va + 16777216 * vb + 1048576 * vc + 65536 * vd +
            4096 * va2 + 256 * vb2 + 16 * vc2 + vd2
          if (0xd800 ≤ v ∧ v < 0xe000) ∨ 0x10ffff < v then none
          else some (Char.ofNat v, rest')
        | _, _, _, _, _, _, _, _ => none
      | _ => none
    else if 48 ≤ e.toNat ∧ e.toNat ≤ 55 then
      match rest with
      | o2 :: o3 :: rest' =>
        if (48 ≤ o2.toNat ∧ o2.toNat ≤ 55) ∧ (48 ≤ o3.toNat ∧ o3.toNat ≤ 55) then
          let v := 64 * (e.toNat - 48) + 8 * (o2.toNat - 48) + (o3.toNat - 48)
          if v < 256 then some (Char.ofNat v, rest') else none
        else none
      | _ => none
    else
      match simpleEsc e with
      | some d => some (d, rest)
      | none => none

/-- Fueled body reader of a double-quoted `%q` token.  The fuel only
makes the recursion structural; `pQuotedBody` supplies enough of it. -/

def pQBF : Nat → List Char → Option (List Char × List Char)
  | 0, _ => none
  | _ + 1, [] => none
  | fuel + 1, c :: rest =>
    if c = '"' then some ([], rest)
    else if c = '\\' then
      match unquoteEsc rest with
      | some (d, rest') => (pQBF fuel rest').map (fun p => (d :: p.1, p.2))
      | none => none
    else (pQBF fuel rest).map (fun p => (c :: p.1, p.2))

/-- Body of a double-quoted token as consumed by `fmt`'s `%q`
scanning: characters up to the first unescaped closing quote with the
escapes decoded; a malformed escape or a missing closing quote is a
scan error (`none`). -/

def pQuotedBody (l : List Char) : Option (List Char × List Char) :=
  pQBF (l.length + 1) l

/-- Scan `%q`: skip spaces, require an opening double quote, read the
body.  Go additionally accepts back-quoted raw strings, which the
serializer never produces. -/

def pQuoted (l : List Char) : Option (List Char × List Char) :=
  match skipSpace l with
  | '"' :: rest => pQuotedBody rest
  | _ => none

/-! ## The query-options model (`queryoptions.go`) -/

/-- Sort-order constants (`qoSortUnsorted` is 0, the rest follow in
declaration order). -/

def qoSortUnsorted : Nat := 0

/-- Sort by acquisition date. -/

def qoSortByAcquisition : Nat := 1

/-- Sort by author. -/

def qoSortByAuthor : Nat := 2

/-- Sort by language. -/

def qoSortByLanguage : Nat := 3

/-- Sort by publisher. -/

def qoSortByPublisher : Nat := 4

/-- Sort by rating. -/

def qoSortByRating : Nat := 5

/-- Sort by series. -/

def qoSortBySeries : Nat := 6

/-- Sort by size. -/

def qoSortBySize : Nat := 7

/-- Sort by tags. -/

def qoSortByTags : Nat := 8

/-- Sort by time. -/

def qoSortByTime : Nat := 9

/-- Sort by title. -/

def qoSortByTitle : Nat := 10

/-- GUI language constants. -/

def qoLangGerman : Nat := 0

/-- English GUI language. -/

def qoLangEnglish : Nat := 1

/-- Layout constants. -/

def qoLayoutList : Nat := 0

/-- Grid layout. -/

def qoLayoutGrid : Nat := 1

/-- Theme constants. -/

def qoThemeLight : Nat := 0

/-- Dark theme. -/

def qoThemeDark : Nat := 1

/-- The `TQueryOptions` struct.  `TID` (declared outside `src/`) is
the integer entity-id type, embedded as `Int`; the Go `uint8` fields
(`GuiLang`, `Layout`, `SortBy`, `Theme`) and `uint` fields
(`LimitLength`, `LimitStart`, `QueryCount`) are `Nat` with explicit
range side conditions where the width matters. -/

structure TQueryOptions where
  ID : Int
  Descending : Bool
  Entity : String
  GuiLang : Nat
  Layout : Nat
  LimitLength : Nat
  LimitStart : Nat
  Matching : String
  QueryCount : Nat
  SortBy : Nat
  Theme : Nat
  VirtLib : String
  deriving DecidableEq

/-- The serialized form of the options: `fmt.Sprintf` applied to the
pattern `|%d|%t|%q|%d|%d|%d|%d|%q|%d|%d|%d|%q|` and the twelve fields
in struct order (the body of `TQueryOptions.String`). -/

def qoStringChars (qo : TQueryOptions) : List Char :=
  '|' :: (intDec qo.ID ++ '|' ::
    (boolChars qo.Descending ++ '|' ::
      (goQuote qo.Entity.data ++ '|' ::
        (natDec qo.GuiLang ++ '|' ::
          (natDec qo.Layout ++ '|' ::
            (natDec qo.LimitLength ++ '|' ::
              (natDec qo.LimitStart ++ '|' ::
                (goQuote qo.Matching.data ++ '|' ::
                  (natDec qo.QueryCount ++ '|' ::
                    (natDec qo.SortBy ++ '|' ::
                      (natDec qo.Theme ++ '|' ::
                        (goQuote qo.VirtLib.data ++ ['|']))))))))))))

/-- `TQueryOptions.String`: the options as a `|` delimited string. -/

def qoString (qo : TQueryOptions) : String :=
  String.mk (qoStringChars qo)

/-- `strings.TrimSpace` on a character list. -/

def trimChars (l : List Char) : List Char :=
  ((l.dropWhile goIsSpace).reverse.dropWhile goIsSpace).reverse

/-- `strings.TrimSpace`. -/

def goTrimSpace (s : String) : String :=
  String.mk (trimChars s.data)

/-! The `Scan` method runs `fmt.Sscanf` with the pattern above, into
the fields `ID`, `Descending`, `Entity`, `GuiLang`, `Layout`,
`LimitLength`, `LimitStart`, a local `m`, `QueryCount`, `SortBy`,
`Theme` and a local `v`.  `Sscanf` assigns operands left to right and
stops at the first failure, so the stages below thread the partially
updated record; after the scan, `Matching` is the trimmed `m` and
`VirtLib` is empty when `v` is the sentinel `-`, else the trimmed
`v`. -/

/-- Epilogue of `Scan`: assign `Matching` and `VirtLib` from the
locals `m` and `v`. -/

def scanFinish (qo : TQueryOptions) (m v : List Char) : TQueryOptions :=
  let qo1 := { qo with Matching := String.mk (trimChars m) }
  if v = ['-'] then { qo1 with VirtLib := "" }
  else { qo1 with VirtLib := String.mk (trimChars v) }

/-- Stage 12 of the `Sscanf` pattern: `|%q` into the local `v`. -/

def scanVirtLib (qo : TQueryOptions) (m : List Char) (l : List Char) : TQueryOptions :=
  match pLit '|' l with
  | none => scanFinish qo m []
  | some l1 =>
    match pQuoted l1 with
    | none => scanFinish qo m []
    | some (v, _) => scanFinish qo m v

/-- Stage 11: `|%d` into `Theme` (a `uint8`). -/

def scanTheme (qo : TQueryOptions) (m : List Char) (l : List Char) : TQueryOptions :=
  match pLit '|' l with
  | none => scanFinish qo m []
  | some l1 =>
    match pUint 256 l1 with
    | none => scanFinish qo m []
    | some (v, l2) => scanVirtLib { qo with Theme := v } m l2

/-- Stage 10: `|%d` into `SortBy` (a `uint8`). -/

def scanSortBy (qo : TQueryOptions) (m : List Char) (l : List Char) : TQueryOptions :=
  match pLit '|' l with
  | none => scanFinish qo m []
  | some l1 =>
    match pUint 256 l1 with
    | none => scanFinish qo m []
    | some (v, l2) => scanTheme { qo with SortBy := v } m l2

/-- Stage 9: `|%d` into `QueryCount` (a `uint`). -/

def scanQueryCount (qo : TQueryOptions) (m : List Char) (l : List Char) : TQueryOptions :=
  match pLit '|' l with
  | none => scanFinish qo m []
  | some l1 =>
    match pUint (2 ^ 64) l1 with
    | none => scanFinish qo m []
    | some (v, l2) => scanSortBy { qo with QueryCount := v } m l2

/-- Stage 8: `|%q` into the local `m`. -/

def scanMatching (qo : TQueryOptions) (l : List Char) : TQueryOptions :=
  match pLit '|' l with
  | none => scanFinish qo [] []
  | some l1 =>
    match pQuoted l1 with
    | none => scanFinish qo [] []
    | some (m, l2) => scanQueryCount qo m l2

/-- Stage 7: `|%d` into `LimitStart` (a `uint`). -/

def scanLimitStart (qo : TQueryOptions) (l : List Char) : TQueryOptions :=
  match pLit '|' l with
  | none => scanFinish qo [] []
  | some l1 =>
    match pUint (2 ^ 64) l1 with
    | none => scanFinish qo [] []
    | some (v, l2) => scanMatching { qo with LimitStart := v } l2

/-- Stage 6: `|%d` into `LimitLength` (a `uint`). -/

def scanLimitLength (qo : TQueryOptions) (l : List Char) : TQueryOptions :=
  match pLit '|' l with
  | none => scanFinish qo [] []
  | some l1 =>
    match pUint (2 ^ 64) l1 with
    | none => scanFinish qo [] []
    | some (v, l2) => scanLimitStart { qo with LimitLength := v } l2

/-- Stage 5: `|%d` into `Layout` (a `uint8`). -/

def scanLayout (qo : TQueryOptions) (l : List Char) : TQueryOptions :=
  match pLit '|' l with
  | none => scanFinish qo [] []
  | some l1 =>
    match pUint 256 l1 with
    | none => scanFinish qo [] []
    | some (v, l2) => scanLimitLength { qo with Layout := v } l2

/-- Stage 4: `|%d` into `GuiLang` (a `uint8`). -/

def scanGuiLang (qo : TQueryOptions) (l : List Char) : TQueryOptions :=
  match pLit '|' l with
  | none => scanFinish qo [] []
  | some l1 =>
    match pUint 256 l1 with
    | none => scanFinish qo [] []
    | some (v, l2) => scanLayout { qo with GuiLang := v } l2

/-- Stage 3: `|%q` into `Entity`. -/

def scanEntity (qo : TQueryOptions) (l : List Char) : TQueryOptions :=
  match pLit '|' l with
  | none => scanFinish qo [] []
  | some l1 =>
    match pQuoted l1 with
    | none => scanFinish qo [] []
    | some (e, l2) => scanGuiLang { qo with Entity := String.mk e } l2

/-- Stage 2: `|%t` into `Descending`. -/

def scanDescending (qo : TQueryOptions) (l : List Char) : TQueryOptions :=
  match pLit '|' l with
  | none => scanFinish qo [] []
  | some l1 =>
    match pBool l1 with
    | none => scanFinish qo [] []
    | some (b, l2) => scanEntity { qo with Descending := b } l2

/-- Stage 1: leading `|` and `%d` into `ID` (a Go `int`). -/

def scanID (qo : TQueryOptions) (l : List Char) : TQueryOptions :=
  match pLit '|' l with
  | none => scanFinish qo [] []
  | some l1 =>
    match pInt l1 with
    | none => scanFinish qo [] []
    | some (v, l2) => scanDescending { qo with ID := v } l2

/-- `TQueryOptions.Scan`: read the options from `aString` into the
receiver. -/

def Scan (qo : TQueryOptions) (aString : String) : TQueryOptions :=
  scanID qo aString.data

/-! ## Pagination and request update (`queryoptions.go`) -/

/-- `TQueryOptions.DecLimit`: decrement the LIMIT start (Go `uint`
arithmetic; the subtraction only happens when it cannot underflow). -/

def DecLimit (qo : TQueryOptions) : TQueryOptions :=
  if 0 < qo.LimitStart then
    if qo.LimitStart ≤ qo.LimitLength then { qo with LimitStart := 0 }
    else { qo with LimitStart := qo.LimitStart - qo.LimitLength }
  else qo

/-- `TQueryOptions.IncLimit`: increment the LIMIT start.  The Go
addition is on `uint`, hence modulo 2^64. -/

def IncLimit (qo : TQueryOptions) : TQueryOptions :=
  { qo with LimitStart := (qo.LimitStart + qo.LimitLength) % 2 ^ 64 }

/-- The request form values read by `Update` (fields of
`02header.gohtml`).  `http.Request.FormValue` returns the empty
string when a parameter is absent, so absence is the empty string. -/

structure TRequest where
  guilang : String
  layout : String
  limitlength : String
  matching : String
  order : String
  sortby : String
  theme : String
  virtlib : String
  deriving DecidableEq

/-- `strconv.Atoi`: optional sign followed by digits only, 64-bit
range; any syntax or range error makes the caller (`Update`) ignore
the value, so errors are `none`. -/

def goAtoi (s : String) : Option Int :=
  match s.data with
  | [] => none
  | c :: ds =>
    if c = '-' then
      if ds ≠ [] ∧ ds.all isGoDigit then
        if decValFrom 0 ds ≤ 2 ^ 63 then some (-(decValFrom 0 ds : Int)) else none
      else none
    else if c = '+' then
      if ds ≠ [] ∧ ds.all isGoDigit then
        if decValFrom 0 ds < 2 ^ 63 then some ((decValFrom 0 ds : Int)) else none
      else none
    else
      if (c :: ds).all isGoDigit then
        if decValFrom 0 (c :: ds) < 2 ^ 63 then some ((decValFrom 0 (c :: ds) : Int)) else none
      else none

/-- Go's conversion `uint(i)` of an `int`, i.e. reduction modulo
2^64. -/

def intToUint64 (i : Int) : Nat :=
  (i % 2 ^ 64).toNat

/-- The `guilang` paragraph of `Update`. -/

def updGuiLang (req : TRequest) (qo : TQueryOptions) : TQueryOptions :=
  if 0 < req.guilang.length then
    { qo with GuiLang := if req.guilang = "en" then qoLangEnglish else 0 }
  else { qo with GuiLang := qoLangGerman }

/-- The `layout` paragraph of `Update`. -/

def updLayout (req : TRequest) (qo : TQueryOptions) : TQueryOptions :=
  if 0 < req.layout.length then
    { qo with Layout := if req.layout = "grid" then qoLayoutGrid else 0 }
  else { qo with Layout := qoLayoutList }

/-- The `limitlength` paragraph of `Update`: on a parsable value that
differs from the current page length, first `DecLimit` (with the old
length), then assign the new length. -/

def updLimitLength (req : TRequest) (qo : TQueryOptions) : TQueryOptions :=
  if 0 < req.limitlength.length then
    match goAtoi req.limitlength with
    | some ll =>
       if intToUint64 ll ≠ qo.LimitLength then
         { DecLimit qo with LimitLength := intToUint64 ll }
       else qo
    | none => qo
  else qo

/-- The `matching` paragraph of `Update`. -/

def updMatching (req : TRequest) (qo : TQueryOptions) : TQueryOptions :=
  if 0 < req.matching.length then
    if req.matching ≠ qo.Matching then
      { qo with ID := 0, Matching := req.matching, LimitStart := 0, VirtLib := "" }
    else qo
  else { qo with Entity := "", ID := 0, Matching := "" }

/-- The `order` paragraph of `Update`. -/

def updOrder (req : TRequest) (qo : TQueryOptions) : TQueryOptions :=
  if 0 < req.order.length then
    if (req.order = "descending") ≠ (qo.Descending = true) then
      { qo with Descending := decide (req.order = "descending"), LimitStart := 0 }
    else qo
  else { qo with Descending := false }

/-- The `switch fsb` of the `sortby` paragraph: it leaves `sb` at 0
(`qoSortUnsorted`) for the empty and for unknown values. -/

def sortByVal (s : String) : Nat :=
  if s = "acquisition" then qoSortByAcquisition
  else if s = "author" then qoSortByAuthor
  else if s = "language" then qoSortByLanguage
  else if s = "publisher" then qoSortByPublisher
  else if s = "rating" then qoSortByRating
  else if s = "series" then qoSortBySeries
  else if s = "size" then qoSortBySize
  else if s = "tags" then qoSortByTags
  else if s = "time" then qoSortByTime
  else if s = "title" then qoSortByTitle
  else qoSortUnsorted

/-- The `sortby` paragraph of `Update`. -/

def updSortBy (req : TRequest) (qo : TQueryOptions) : TQueryOptions :=
  if 0 < req.sortby.length then
    if sortByVal req.sortby ≠ qo.SortBy then
      { qo with LimitStart := 0, SortBy := sortByVal req.sortby }
    else qo
  else { qo with SortBy := qoSortByAcquisition }

/-- The `theme` paragraph of `Update`. -/

def updTheme (req : TRequest) (qo : TQueryOptions) : TQueryOptions :=
  if 0 < req.theme.length then
    { qo with Theme := if req.theme = "dark" then qoThemeDark else 0 }
  else { qo with Theme := qoThemeLight }

/-- The `virtlib` paragraph of `Update`.  `vll` is the virtual-library
lookup, modelled from the spec: `ResolveVirtualLibrary(name)` maps a
named virtual library to its pre-built `Matching` definition;
`GetVirtLibList` and its error path are outside `src/`, and a listing
error or a missing key is `none`. -/

def updVirtLib (vll : String → Option String) (req : TRequest) (qo : TQueryOptions) :
    TQueryOptions :=
  if 0 < req.virtlib.length then
    if req.virtlib ≠ qo.VirtLib then
      let qo1 :=
        if req.virtlib = "-" then { qo with VirtLib := "" }
        else { qo with VirtLib := req.virtlib }
      let qo2 :=
        if req.virtlib ≠ "" then
          match vll req.virtlib with
          | some df => { qo1 with Matching := df }
          | none => qo1
        else qo1
      { qo2 with Entity := "", ID := 0, LimitStart := 0 }
    else qo
  else { qo with VirtLib := "" }

/-- `TQueryOptions.Update`: the eight request paragraphs applied in
source order. -/

def Update (vll : String → Option String) (req : TRequest) (qo : TQueryOptions) :
    TQueryOptions :=
  updVirtLib vll req
    (updTheme req
      (updSortBy req
        (updOrder req
          (updMatching req
            (updLimitLength req
              (updLayout req
                (updGuiLang req qo)))))))

/-- A query-options value reachable through `Update`: the request's
`matching` parameter carries leading white space, which `Update`
stores verbatim. -/

def qoSpaceMatch : TQueryOptions :=
  Update (fun _ => none) ⟨"", "", "", " x", "", "", "", ""⟩
    ⟨0, false, "", 0, 0, 24, 0, "", 0, 0, 0, ""⟩

/-- The options value of the pagination scenario: `LimitStart = 0`,
`LimitLength = 24`. -/

def qoPage24 : TQueryOptions :=
  ⟨0, false, "", 0, 0, 24, 0, "", 0, 0, 0, ""⟩

/-- Options value of the C3 counterexample: a pending entity filter
and a non-zero pagination offset. -/

def qoC3cex : TQueryOptions :=
  ⟨0, false, "tag", 0, 0, 24, 24, "old", 0, 0, 0, ""⟩

/-- Request of the C3 counterexample: only `matching` is set, to a
value different from the current one. -/

def reqC3cex : TRequest :=
  ⟨"", "", "", "new", "", "", "", ""⟩

/-- Options value of the C10 counterexample. -/

def qoC10cex : TQueryOptions :=
  ⟨5, false, "tag", 0, 0, 24, 24, "old", 0, 0, 0, ""⟩

/-- Request of the C10 counterexample: `matching` absent but `order`
set to `descending`. -/

def reqC10cex : TRequest :=
  ⟨"", "", "", "", "descending", "", "", ""⟩

/-! ## The SQL clause composer (`db/queries.go`) -/

/-- The `quHaving` map: entity name to JOIN/WHERE format fragment.  A
Go map lookup on a missing key yields the zero value, here the empty
string. -/

def quHaving (e : String) : String :=
  if e = "all" then ""
  else if e = "authors" then
    "JOIN books_authors_link a ON(a.book = b.id) WHERE (a.author = %d) "
  else if e = "format" then
    "JOIN data d ON(b.id = d.book) JOIN data dd ON (d.format = dd.format) WHERE (dd.id = %d) "
  else if e = "languages" then
    "JOIN books_languages_link l ON(l.book = b.id) WHERE (l.lang_code = %d) "
  else if e = "publisher" then
    "JOIN books_publishers_link p ON(p.book = b.id) WHERE (p.publisher = %d) "
  else if e = "series" then
    "JOIN books_series_link s ON(s.book = b.id) WHERE (s.series = %d) "
  else if e = "tags" then
    "JOIN books_tags_link t ON(t.book = b.id) WHERE (t.tag = %d) "
  else ""

/-- Substitute the first `%d` of a format for the decimal of `i`;
`none` when the format holds no `%d` (the `quHaving` fragments hold
no other verb). -/

def substD : List Char → Int → Option (List Char)
  | [], _ => none
  | c :: rest, i =>
    if c = '%' then
      match rest with
      | 'd' :: rest' => some (intDec i ++ rest')
      | _ => (substD rest i).map (c :: ·)
    else (substD rest i).map (c :: ·)

/-- `fmt.Sprintf` with one `int` argument: substitute `%d`, or, when
the format has no verb at all, append Go's extra-argument artifact
`%!(EXTRA int=i)`. -/

def sprintfD (fmt : String) (i : Int) : String :=
  match substD fmt.data i with
  | some l => String.mk l
  | none => String.mk (fmt.data ++ ("%!(EXTRA int=".data ++ intDec i ++ [')']))

/-- The `having()` filter fragment composer; `TID` is the Go `int`
entity-id type. -/

def having (aEntity : String) (aID : Int) : String :=
  if aEntity.length = 0 ∨ aEntity = "all" ∨ aID = 0 then ""
  else sprintfD (quHaving aEntity) aID

/-- A substituted SQL fragment: prefix, decimal id, suffix. -/

def sqlFrag (pre : String) (i : Int) (post : String) : String :=
  String.mk (pre.data ++ (intDec i ++ post.data))

/-- Go's extra-argument Sprintf artifact for one `int`. -/

def extraFrag (i : Int) : String :=
  String.mk ("%!(EXTRA int=".data ++ intDec i ++ [')'])

/-- `escapeQuery`, byte-level.  The Go loop fills a preallocated
double-size buffer through an index `j` and a deferred `escape` flag;
elementwise that is exactly the case split below, and the returned
`result[0:j]` is the concatenation of the emitted groups. -/

def escapeQuery : List Nat → List Nat
  | [] => []
  | c :: rest =>
    if c = 10 ∨ c = 13 ∨ c = 92 ∨ c = 34 then 92 :: c :: escapeQuery rest
    else if c = 26 then 92 :: 90 :: escapeQuery rest
    else c :: escapeQuery rest

/-- Per-byte escape table: newline, carriage return, backslash and
double quote get a backslash prefix; Ctrl-Z (26) becomes backslash
and a literal `Z` (90); everything else is copied unchanged. -/

def escByte (c : Nat) : List Nat :=
  if c = 10 ∨ c = 13 ∨ c = 92 ∨ c = 34 then [92, c]
  else if c = 26 then [92, 90]
  else [c]

/-- Reader of the body of a double-quoted SQL literal: a backslash
consumes the following byte, and the scan fails (`false`) on any
double quote reached outside such a pair — the byte that would
terminate the literal early. -/

def quoteSafeBody : List Nat → Bool
  | [] => true
  | c :: rest =>
    if c = 92 then
      match rest with
      | [] => true
      | _ :: rest' => quoteSafeBody rest'
    else if c = 34 then false
    else quoteSafeBody rest

/-! ## The multi-valued field decoder (`db/queries.go`) -/

/-- `TEntity` (declared outside `src/` with the documents): id, name
and optional URL; `prepAuthors` leaves the URL at its zero value. -/

structure TEntity where
  ID : Int
  Name : String
  URL : String
  deriving DecidableEq

/-- `strings.Split(s, ", ")`: split on every non-overlapping
occurrence of comma-space; the empty input yields one empty
segment. -/

def splitCommaSpace : List Char → List (List Char)
  | [] => [[]]
  | [c] => [[c]]
  | c1 :: c2 :: rest =>
    if c1 = ',' ∧ c2 = ' ' then [] :: splitCommaSpace rest
    else
      match splitCommaSpace (c2 :: rest) with
      | [] => [[c1]]
      | x :: xs => (c1 :: x) :: xs

/-- First component of `strings.SplitN(s, "|", 2)`: the characters
before the first pipe (all of `s` when there is none). -/

def splitPipeHead : List Char → List Char
  | [] => []
  | c :: rest => if c = '|' then [] else c :: splitPipeHead rest

/-- Second component of `strings.SplitN(s, "|", 2)` padded with the
appended empty string: the characters after the first pipe, or the
empty list when there is none (then `a[1]` is the padding). -/

def splitPipeTail : List Char → List Char
  | [] => []
  | c :: rest => if c = '|' then rest else splitPipeTail rest

/-- `strconv.Atoi` with the error discarded, as in `num, _ :=
strconv.Atoi(a[1])`: syntax errors yield 0; range errors yield the
clamped 64-bit limit (which `Atoi` returns alongside `ErrRange`). -/

def goAtoiLenient (s : String) : Int :=
  match s.data with
  | [] => 0
  | c :: ds =>
    if c = '-' then
      if ds ≠ [] ∧ ds.all isGoDigit then
        if decValFrom 0 ds ≤ 2 ^ 63 then -(decValFrom 0 ds : Int) else -(2 ^ 63)
      else 0
    else if c = '+' then
      if ds ≠ [] ∧ ds.all isGoDigit then
        if decValFrom 0 ds < 2 ^ 63 then (decValFrom 0 ds : Int) else 2 ^ 63 - 1
      else 0
    else
      if (c :: ds).all isGoDigit then
        if decValFrom 0 (c :: ds) < 2 ^ 63 then (decValFrom 0 (c :: ds) : Int)
        else 2 ^ 63 - 1
      else 0

/-- One decoded `name|id` segment: `a := append(SplitN(val, "|", 2),
"")`, then `TEntity{ID: Atoi(a[1]), Name: a[0]}`. -/

def prepEntity (v : List Char) : TEntity :=
  { ID := goAtoiLenient (String.mk (splitPipeTail v)),
    Name := String.mk (splitPipeHead v), URL := "" }

/-- The name ordering passed to `sort.Slice` in `prepAuthors` (and
the other multi-valued decoders): ascending by `Name`.  `sort.Slice`
promises no particular order between equal names; this embedding uses
the stable insertion sort, and no theorem below depends on the order
chosen between equal names. -/

def sortByName (l : List TEntity) : List TEntity :=
  l.insertionSort (fun a b => a.Name < b.Name)

/-- `prepAuthors`: split the packed column on comma-space, skip empty
segments, decode each, and sort by name when more than one entity was
decoded.  Decoding is total: no input makes it fail. -/

def prepAuthors (aAuthor : String) : List TEntity :=
  let result := ((splitCommaSpace aAuthor.data).filter (fun v => v.length ≠ 0)).map prepEntity
  if 1 < result.length then sortByName result else result

/-! ## Query orchestration (`db/queries.go`) -/

/-- A document; the orchestration contract of `QueryBy` and
`QuerySearch` is insensitive to the field contents, so only the id is
carried. -/

structure TDocument where
  ID : Int
  deriving DecidableEq

/-- Abstract store behaviour behind `dbSqliteDB.Query` and
`doQueryAll`: the rows returned by the COUNT query (`none` is a query
error, in which case `rCount` keeps its zero value), and the outcome
of the detail query (`doQueryAll` returns either a list or an
error).  The SQL text composed from the options (`having`, search
clause, `orderBy`, `limit`) selects which rows the real store
returns; the abstract model ranges over all possible results. -/

structure TStoreModel where
  countRows : Option (List Int)
  detailResult : Except String (List TDocument)

/-- The count obtained by `rows.Next` and `rows.Scan(&rCount)` on the
COUNT query: first row on success, otherwise the zero value. -/

def countScan (st : TStoreModel) : Int :=
  match st.countRows with
  | some (c :: _) => c
  | _ => 0

/-- `QueryBy`: count query first; the detail query runs only for a
positive count.  The result quadruple is `(rCount, rList, rErr,
detail-query-executed)`. -/

def QueryBy (st : TStoreModel) (aOptions : TQueryOptions) :
    Int × Option (List TDocument) × Option String × Bool :=
  let rCount := countScan st
  if 0 < rCount then
    match st.detailResult with
    | Except.ok l => (rCount, some l, none, true)
    | Except.error e => (rCount, none, some e, true)
  else (rCount, none, none, false)

/-- `QuerySearch`: like `QueryBy` with the search clause, except that
a non-positive count sets the error `No documents found`. -/

def QuerySearch (st : TStoreModel) (aOptions : TQueryOptions) :
    Int × Option (List TDocument) × Option String × Bool :=
  let rCount := countScan st
  if 0 < rCount then
    match st.detailResult with
    | Except.ok l => (rCount, some l, none, true)
    | Except.error e => (rCount, none, some e, true)
  else (rCount, none, some "No documents found", false)

theorem natDecFuel_stable (n : Nat) : ∀ fuel, n < fuel → natDecFuel fuel n = natDec n := by
  induction n using Nat.strong_induction_on with
  | _ n ih =>
    intro fuel hf
    match fuel, hf with
    | f + 1, hf =>
      show natDecFuel (f + 1) n = natDecFuel (n + 1) n
      by_cases h10 : n < 10
      · simp [natDecFuel, h10]
      · have hdiv : n / 10 < n := Nat.div_lt_self (by omega) (by omega)
        simp only [natDecFuel, h10, if_false]
        rw [ih (n / 10) hdiv f (by omega), ih (n / 10) hdiv n (by omega)]

/-- Unfolding equation for `natDec` that hides the fuel. -/

theorem natDec_eq (n : Nat) :
    natDec n = if n < 10 then [digitChar n] else natDec (n / 10) ++ [digitChar (n % 10)] := by
  by_cases h10 : n < 10
  · simp [natDec, natDecFuel, h10]
  · have hdiv : n / 10 < n := Nat.div_lt_self (by omega) (by omega)
    have step : natDec n = natDecFuel n (n / 10) ++ [digitChar (n % 10)] := by
      simp only [natDec]
      rw [show natDecFuel (n + 1) n =
        if n < 10 then [digitChar n] else natDecFuel n (n / 10) ++ [digitChar (n % 10)] from rfl]
      rw [if_neg h10]
    rw [step, natDecFuel_stable (n / 10) n (by omega), if_neg h10]

theorem digitChar_facts : ∀ d, d < 10 →
    isGoDigit (digitChar d) = true ∧ digitVal (digitChar d) = d := by decide

theorem natDec_digits (n : Nat) : ∀ c ∈ natDec n, isGoDigit c = true := by
  induction n using Nat.strong_induction_on with
  | _ n ih =>
    rw [natDec_eq]
    by_cases h10 : n < 10
    · simp only [h10, if_true, List.mem_singleton]
      rintro c rfl
      exact (digitChar_facts n h10).1
    · have hdiv : n / 10 < n := Nat.div_lt_self (by omega) (by omega)
      simp only [h10, if_false, List.mem_append, List.mem_singleton]
      rintro c (hc | rfl)
      · exact ih _ hdiv c hc
      · exact (digitChar_facts (n % 10) (Nat.mod_lt _ (by omega))).1

theorem natDec_ne_nil (n : Nat) : natDec n ≠ [] := by
  rw [natDec_eq]
  by_cases h10 : n < 10 <;> simp [h10]

theorem decValFrom_append (acc : Nat) (l1 l2 : List Char) :
    decValFrom acc (l1 ++ l2) = decValFrom (decValFrom acc l1) l2 := by
  simp [decValFrom, List.foldl_append]

theorem decValFrom_natDec (acc n : Nat) :
    decValFrom acc (natDec n) = 10 ^ (natDec n).length * acc + n := by
  induction n using Nat.strong_induction_on generalizing acc with
  | _ n ih =>
    rw [natDec_eq]
    by_cases h10 : n < 10
    · simp only [h10, if_true]
      simp [decValFrom, (digitChar_facts n h10).2]
    · have hdiv : n / 10 < n := Nat.div_lt_self (by omega) (by omega)
      simp only [h10, if_false]
      rw [decValFrom_append, ih (n / 10) hdiv acc]
      simp only [decValFrom, List.foldl_cons, List.foldl_nil,
        (digitChar_facts (n % 10) (Nat.mod_lt _ (by omega))).2,
        List.length_append, List.length_singleton]
      rw [pow_succ]
      have : 10 * (n / 10) + n % 10 = n := Nat.div_add_mod n 10
      ring_nf
      omega

theorem decVal_natDec (n : Nat) : decValFrom 0 (natDec n) = n := by
  rw [decValFrom_natDec]; omega

/-- Splitting a character list at the end of an all-digit prefix. -/

theorem takeWhile_digits_append (l1 l2 : List Char)
    (h1 : ∀ c ∈ l1, isGoDigit c = true)
    (h2 : ∀ c, l2.head? = some c → isGoDigit c = false) :
    (l1 ++ l2).takeWhile isGoDigit = l1 ∧ (l1 ++ l2).dropWhile isGoDigit = l2 := by
  induction l1 with
  | nil =>
    cases l2 with
    | nil => simp
    | cons c rest =>
      have := h2 c rfl
      simp [List.takeWhile, List.dropWhile, this]
  | cons c rest ih =>
    have hc : isGoDigit c = true := h1 c (by simp)
    have := ih (fun d hd => h1 d (by simp [hd]))
    simp [List.takeWhile, List.dropWhile, hc, this.1, this.2]

theorem skipSpace_nospace {c : Char} (h : goIsSpace c = false) (l : List Char) :
    skipSpace (c :: l) = c :: l := by
  simp [skipSpace, List.dropWhile, h]

theorem unquoteEsc_len (l : List Char) (d : Char) (r : List Char)
    (h : unquoteEsc l = some (d, r)) : r.length ≤ l.length := by
  unfold unquoteEsc at h
  repeat' split at h
  all_goals try dsimp only at h
  all_goals try split at h
  all_goals try exact Option.noConfusion h
  all_goals try (simp only [Option.some.injEq, Prod.mk.injEq] at h; obtain ⟨-, rfl⟩ := h)
  all_goals simp only [List.length_cons]
  all_goals omega

theorem pQBF_stable : ∀ f1 : Nat, ∀ f2 : Nat, ∀ l : List Char,
    l.length < f1 → l.length < f2 → pQBF f1 l = pQBF f2 l := by
  intro f1
  induction f1 with
  | zero => intro f2 l h1 _; omega
  | succ f ih =>
    intro f2 l h1 h2
    match f2, h2 with
    | g + 1, h2 =>
      cases l with
      | nil => rfl
      | cons c rest =>
        simp only [pQBF]
        by_cases hq : c = '"'
        · simp [hq]
        · simp only [if_neg hq]
          by_cases hb : c = '\\'
          · rw [if_pos hb, if_pos hb]
            rcases hu : unquoteEsc rest with - | ⟨d, rest'⟩
            · rfl
            · have hlen := unquoteEsc_len rest d rest' hu
              simp only [List.length_cons] at h1 h2
              have hrec := ih g rest' (by omega) (by omega)
              dsimp only
              rw [hrec]
          · simp only [if_neg hb]
            simp only [List.length_cons] at h1 h2
            rw [ih g rest (by omega) (by omega)]

theorem pQuotedBody_cons_eq (c : Char) (l : List Char) :
    pQuotedBody (c :: l) =
      if c = '"' then some ([], l)
      else if c = '\\' then
        match unquoteEsc l with
        | some (d, rest') => (pQBF (l.length + 1) rest').map (fun p => (d :: p.1, p.2))
        | none => none
      else (pQuotedBody l).map (fun p => (c :: p.1, p.2)) := rfl

theorem hexVal_hexChar : ∀ n, n < 16 → hexVal (hexChar n) = some n := by decide

theorem pQB_close (rest : List Char) : pQuotedBody ('"' :: rest) = some ([], rest) := rfl

theorem pQB_raw (c : Char) (l : List Char) (hq : c ≠ '"') (hb : c ≠ '\\') :
    pQuotedBody (c :: l) = (pQuotedBody l).map (fun p => (c :: p.1, p.2)) := by
  rw [pQuotedBody_cons_eq, if_neg hq, if_neg hb]

theorem pQB_escGen (rest rest' : List Char) (d : Char)
    (h : unquoteEsc rest = some (d, rest')) :
    pQuotedBody ('\\' :: rest) = (pQuotedBody rest').map (fun p => (d :: p.1, p.2)) := by
  rw [pQuotedBody_cons_eq, if_neg (by decide), if_pos rfl, h]
  dsimp only
  rw [pQBF_stable (rest.length + 1) (rest'.length + 1) rest'
    (by have := unquoteEsc_len rest d rest' h; omega) (by omega)]
  rfl

theorem unquoteEsc_hex (a b : Nat) (ha : a < 16) (hb : b < 16) (l : List Char) :
    unquoteEsc ('x' :: hexChar a :: hexChar b :: l) = some (Char.ofNat (16 * a + b), l) := by
  have h0 : unquoteEsc ('x' :: hexChar a :: hexChar b :: l) =
      match hexVal (hexChar a), hexVal (hexChar b) with
      | some v1, some v2 => some (Char.ofNat (16 * v1 + v2), l)
      | _, _ => none := rfl
  rw [h0, hexVal_hexChar a ha, hexVal_hexChar b hb]

theorem pQuotedBody_quoteChar (c : Char) (l : List Char) :
    pQuotedBody (goQuoteChar c ++ l) = (pQuotedBody l).map (fun p => (c :: p.1, p.2)) := by
  by_cases h1 : c = '"' ∨ c = '\\'
  · rcases h1 with rfl | rfl
    · rw [show goQuoteChar '"' = ['\\', '"'] from rfl]
      exact pQB_escGen _ _ _ rfl
    · rw [show goQuoteChar '\\' = ['\\', '\\'] from rfl]
      exact pQB_escGen _ _ _ rfl
  · push_neg at h1
    obtain ⟨hq, hb⟩ := h1
    by_cases h2 : goIsPrint c = true
    · have hgq : goQuoteChar c = [c] := by simp [goQuoteChar, hq, hb, h2]
      rw [hgq]
      exact pQB_raw c l hq hb
    · have hval : c.toNat < 0x20 ∨ c.toNat = 0x7f := by
        simp only [goIsPrint, decide_eq_true_eq, not_and, not_ne_iff] at h2
        by_cases hc : 0x20 ≤ c.toNat
        · exact Or.inr (h2 hc)
        · exact Or.inl (by omega)
      by_cases h3 : c = '\x07'
      · subst h3
        exact pQB_escGen _ _ _ rfl
      by_cases h4 : c = '\x08'
      · subst h4
        exact pQB_escGen _ _ _ rfl
      by_cases h5 : c = '\x0c'
      · subst h5
        exact pQB_escGen _ _ _ rfl
      by_cases h6 : c = '\n'
      · subst h6
        exact pQB_escGen _ _ _ rfl
      by_cases h7 : c = '\r'
      · subst h7
        exact pQB_escGen _ _ _ rfl
      by_cases h8 : c = '\t'
      · subst h8
        exact pQB_escGen _ _ _ rfl
      by_cases h9 : c = '\x0b'
      · subst h9
        exact pQB_escGen _ _ _ rfl
      · have hgq : goQuoteChar c =
            ['\\', 'x', hexChar (c.toNat / 16 % 16), hexChar (c.toNat % 16)] := by
          simp [goQuoteChar, hq, hb, h2, h3, h4, h5, h6, h7, h8, h9]
        have hd1 : c.toNat / 16 % 16 < 16 := Nat.mod_lt _ (by omega)
        have hd2 : c.toNat % 16 < 16 := Nat.mod_lt _ (by omega)
        rw [hgq, List.cons_append, List.cons_append, List.cons_append, List.cons_append,
          List.nil_append, pQB_escGen _ _ _ (unquoteEsc_hex _ _ hd1 hd2 l)]
        have hofnat : Char.ofNat (16 * (c.toNat / 16 % 16) + c.toNat % 16) = c := by
          have hv : 16 * (c.toNat / 16 % 16) + c.toNat % 16 = c.toNat := by omega
          rw [hv, Char.ofNat_toNat]
        simp only [hofnat]

theorem pQuotedBody_roundtrip (s rest : List Char) :
    pQuotedBody (s.flatMap goQuoteChar ++ '"' :: rest) = some (s, rest) := by
  induction s with
  | nil => exact pQB_close rest
  | cons c tl ih =>
    rw [List.flatMap_cons, List.append_assoc, pQuotedBody_quoteChar, ih]
    rfl

theorem pQuoted_of_skipSpace (l body : List Char) (h : skipSpace l = '"' :: body) :
    pQuoted l = pQuotedBody body := by
  unfold pQuoted
  rw [h]
  rfl

theorem pQuoted_roundtrip (s rest : List Char) :
    pQuoted (goQuote s ++ rest) = some (s, rest) := by
  have hshape : goQuote s ++ rest = '"' :: (s.flatMap goQuoteChar ++ '"' :: rest) := by
    simp [goQuote]
  rw [hshape, pQuoted_of_skipSpace _ _ (skipSpace_nospace (by decide) _)]
  exact pQuotedBody_roundtrip s rest

theorem pLit_self (c : Char) (rest : List Char) : pLit c (c :: rest) = some rest := by
  simp [pLit]

theorem digit_not_space {c : Char} (h : isGoDigit c = true) : goIsSpace c = false := by
  simp only [isGoDigit, decide_eq_true_eq] at h
  simp only [goIsSpace, decide_eq_false_iff_not]
  omega

theorem pNatDigits_natDec (n : Nat) (c : Char) (rest : List Char)
    (hc : isGoDigit c = false) :
    pNatDigits (natDec n ++ c :: rest) = some (n, c :: rest) := by
  have hsplit := takeWhile_digits_append (natDec n) (c :: rest) (natDec_digits n)
    (by intro d hd; injection hd with hd; exact hd ▸ hc)
  unfold pNatDigits
  rw [hsplit.1, hsplit.2, if_neg (natDec_ne_nil n), decVal_natDec]

theorem skipSpace_natDec (n : Nat) (rest : List Char) :
    skipSpace (natDec n ++ rest) = natDec n ++ rest := by
  rcases hd : natDec n with - | ⟨c, cs⟩
  · exact absurd hd (natDec_ne_nil n)
  · have hdig : isGoDigit c = true := natDec_digits n c (by rw [hd]; simp)
    rw [List.cons_append]
    exact skipSpace_nospace (digit_not_space hdig) _

theorem pUint_natDec (bound n : Nat) (c : Char) (rest : List Char)
    (hn : n < bound) (hc : isGoDigit c = false) :
    pUint bound (natDec n ++ c :: rest) = some (n, c :: rest) := by
  unfold pUint
  rw [skipSpace_natDec, pNatDigits_natDec n c rest hc]
  simp [hn]

theorem natDec_head_not_sign (n : Nat) :
    ∃ d cs, natDec n = d :: cs ∧ isGoDigit d = true ∧ d ≠ '-' ∧ d ≠ '+' := by
  rcases hd : natDec n with - | ⟨c, cs⟩
  · exact absurd hd (natDec_ne_nil n)
  · have hdig : isGoDigit c = true := natDec_digits n c (by rw [hd]; simp)
    refine ⟨c, cs, rfl, hdig, ?_, ?_⟩ <;>
      · rintro rfl
        simp [isGoDigit] at hdig

theorem pInt_intDec (i : Int) (c : Char) (rest : List Char)
    (hlo : -(2 ^ 63) ≤ i) (hhi : i < 2 ^ 63) (hc : isGoDigit c = false) :
    pInt (intDec i ++ c :: rest) = some (i, c :: rest) := by
  by_cases hneg : i < 0
  · have habs : (i.natAbs : Int) = -i := by omega
    rw [show intDec i = '-' :: natDec i.natAbs from by rw [intDec, if_pos hneg]]
    rw [List.cons_append]
    unfold pInt
    rw [skipSpace_nospace (by decide) _]
    dsimp only
    rw [if_pos rfl, pNatDigits_natDec _ c rest hc]
    dsimp only
    rw [if_pos (by omega)]
    have : -(i.natAbs : Int) = i := by omega
    rw [this]
  · push_neg at hneg
    have htoNat : (i.toNat : Int) = i := Int.toNat_of_nonneg hneg
    rw [show intDec i = natDec i.toNat from by rw [intDec, if_neg (by omega)]]
    obtain ⟨d, cs, hd, hdig, hdm, hdp⟩ := natDec_head_not_sign i.toNat
    unfold pInt
    rw [skipSpace_natDec, hd, List.cons_append]
    dsimp only
    rw [if_neg hdm, if_neg hdp, ← List.cons_append, ← hd, pNatDigits_natDec _ c rest hc]
    dsimp only
    rw [if_pos (by omega), htoNat]

theorem pBool_boolChars (b : Bool) (rest : List Char) :
    pBool (boolChars b ++ rest) = some (b, rest) := by
  cases b <;> rfl

/-- Strings are structurally a list of characters. -/

theorem stringMkData (s : String) : String.mk s.data = s := by
  cases s
  rfl

theorem virtLib_data_ne {s : String} (h : s ≠ "-") : s.data ≠ ['-'] := by
  intro hd
  exact h (by rw [← stringMkData s, hd])

/-- Central round-trip lemma: scanning a serialized options value into
any receiver reproduces the serialized value, provided the numeric
fields are within the widths of their Go types, `Matching` and
`VirtLib` are unchanged by `strings.TrimSpace`, and `VirtLib` is not
the literal sentinel `-`. -/

theorem Scan_qoString (qo qo0 : TQueryOptions)
    (hID1 : -(2 ^ 63) ≤ qo.ID) (hID2 : qo.ID < 2 ^ 63)
    (hGui : qo.GuiLang < 256) (hLay : qo.Layout < 256)
    (hLL : qo.LimitLength < 2 ^ 64) (hLS : qo.LimitStart < 2 ^ 64)
    (hQC : qo.QueryCount < 2 ^ 64) (hSort : qo.SortBy < 256) (hTheme : qo.Theme < 256)
    (hM : trimChars qo.Matching.data = qo.Matching.data)
    (hV : trimChars qo.VirtLib.data = qo.VirtLib.data)
    (hVd : qo.VirtLib ≠ "-") :
    Scan qo0 (qoString qo) = qo := by
  obtain ⟨tID, tDesc, tEnt, tGL, tLay, tLL, tLS, tM, tQC, tSB, tTh, tVL⟩ := qo
  simp only at hID1 hID2 hGui hLay hLL hLS hQC hSort hTheme hM hV hVd
  show scanID qo0 (qoStringChars _) = _
  unfold qoStringChars
  dsimp only
  unfold scanID
  rw [pLit_self]
  dsimp only
  rw [pInt_intDec tID '|' _ hID1 hID2 (by decide)]
  dsimp only
  unfold scanDescending
  rw [pLit_self]
  dsimp only
  rw [pBool_boolChars]
  dsimp only
  unfold scanEntity
  rw [pLit_self]
  dsimp only
  rw [pQuoted_roundtrip]
  dsimp only
  unfold scanGuiLang
  rw [pLit_self]
  dsimp only
  rw [pUint_natDec 256 tGL '|' _ hGui (by decide)]
  dsimp only
  unfold scanLayout
  rw [pLit_self]
  dsimp only
  rw [pUint_natDec 256 tLay '|' _ hLay (by decide)]
  dsimp only
  unfold scanLimitLength
  rw [pLit_self]
  dsimp only
  rw [pUint_natDec (2 ^ 64) tLL '|' _ hLL (by decide)]
  dsimp only
  unfold scanLimitStart
  rw [pLit_self]
  dsimp only
  rw [pUint_natDec (2 ^ 64) tLS '|' _ hLS (by decide)]
  dsimp only
  unfold scanMatching
  rw [pLit_self]
  dsimp only
  rw [pQuoted_roundtrip]
  dsimp only
  unfold scanQueryCount
  rw [pLit_self]
  dsimp only
  rw [pUint_natDec (2 ^ 64) tQC '|' _ hQC (by decide)]
  dsimp only
  unfold scanSortBy
  rw [pLit_self]
  dsimp only
  rw [pUint_natDec 256 tSB '|' _ hSort (by decide)]
  dsimp only
  unfold scanTheme
  rw [pLit_self]
  dsimp only
  rw [pUint_natDec 256 tTh '|' _ hTheme (by decide)]
  dsimp only
  unfold scanVirtLib
  rw [pLit_self]
  dsimp only
  rw [pQuoted_roundtrip]
  dsimp only
  unfold scanFinish
  dsimp only
  rw [if_neg (virtLib_data_ne hVd)]
  rw [hM, hV, stringMkData, stringMkData]

theorem strLength_pos {s : String} (h : s ≠ "") : 0 < s.length := by
  rcases s with ⟨l⟩
  cases l with
  | nil => exact absurd rfl h
  | cons c cs => simp [String.length]

theorem updGuiLang_keeps (req : TRequest) (qo : TQueryOptions) :
    (updGuiLang req qo).Entity = qo.Entity ∧ (updGuiLang req qo).ID = qo.ID ∧
    (updGuiLang req qo).Matching = qo.Matching ∧
    (updGuiLang req qo).LimitStart = qo.LimitStart ∧
    (updGuiLang req qo).VirtLib = qo.VirtLib := by
  unfold updGuiLang
  split_ifs <;> exact ⟨rfl, rfl, rfl, rfl, rfl⟩

theorem updLayout_keeps (req : TRequest) (qo : TQueryOptions) :
    (updLayout req qo).Entity = qo.Entity ∧ (updLayout req qo).ID = qo.ID ∧
    (updLayout req qo).Matching = qo.Matching ∧
    (updLayout req qo).LimitStart = qo.LimitStart ∧
    (updLayout req qo).VirtLib = qo.VirtLib := by
  unfold updLayout
  split_ifs <;> exact ⟨rfl, rfl, rfl, rfl, rfl⟩

theorem updTheme_keeps (req : TRequest) (qo : TQueryOptions) :
    (updTheme req qo).Entity = qo.Entity ∧ (updTheme req qo).ID = qo.ID ∧
    (updTheme req qo).Matching = qo.Matching ∧
    (updTheme req qo).LimitStart = qo.LimitStart ∧
    (updTheme req qo).VirtLib = qo.VirtLib := by
  unfold updTheme
  split_ifs <;> exact ⟨rfl, rfl, rfl, rfl, rfl⟩

theorem updLimitLength_keeps (req : TRequest) (qo : TQueryOptions) :
    (updLimitLength req qo).Entity = qo.Entity ∧ (updLimitLength req qo).ID = qo.ID ∧
    (updLimitLength req qo).Matching = qo.Matching ∧
    (updLimitLength req qo).VirtLib = qo.VirtLib := by
  unfold updLimitLength DecLimit
  repeat' split
  all_goals exact ⟨rfl, rfl, rfl, rfl⟩

theorem updOrder_keeps (req : TRequest) (qo : TQueryOptions) :
    (updOrder req qo).Entity = qo.Entity ∧ (updOrder req qo).ID = qo.ID ∧
    (updOrder req qo).Matching = qo.Matching ∧
    (updOrder req qo).VirtLib = qo.VirtLib := by
  unfold updOrder
  repeat' split
  all_goals exact ⟨rfl, rfl, rfl, rfl⟩

theorem updOrder_ls (req : TRequest) (qo : TQueryOptions) :
    (updOrder req qo).LimitStart = qo.LimitStart ∨ (updOrder req qo).LimitStart = 0 := by
  unfold updOrder
  repeat' split
  all_goals first | (left; rfl) | (right; rfl)

theorem updSortBy_keeps (req : TRequest) (qo : TQueryOptions) :
    (updSortBy req qo).Entity = qo.Entity ∧ (updSortBy req qo).ID = qo.ID ∧
    (updSortBy req qo).Matching = qo.Matching ∧
    (updSortBy req qo).VirtLib = qo.VirtLib := by
  unfold updSortBy
  split_ifs <;> exact ⟨rfl, rfl, rfl, rfl⟩

theorem updSortBy_ls (req : TRequest) (qo : TQueryOptions) :
    (updSortBy req qo).LimitStart = qo.LimitStart ∨ (updSortBy req qo).LimitStart = 0 := by
  unfold updSortBy
  split_ifs <;> first | (left; rfl) | (right; rfl)

theorem updMatching_set (req : TRequest) (qo : TQueryOptions)
    (h1 : req.matching ≠ "") (h2 : req.matching ≠ qo.Matching) :
    updMatching req qo =
      { qo with ID := 0, Matching := req.matching, LimitStart := 0, VirtLib := "" } := by
  unfold updMatching
  rw [if_pos (strLength_pos h1), if_pos h2]

theorem updMatching_absent (req : TRequest) (qo : TQueryOptions) (h : req.matching = "") :
    updMatching req qo = { qo with Entity := "", ID := 0, Matching := "" } := by
  unfold updMatching
  rw [if_neg (by rw [h]; decide)]

theorem updLimitLength_absent (req : TRequest) (qo : TQueryOptions)
    (h : req.limitlength = "") : updLimitLength req qo = qo := by
  unfold updLimitLength
  rw [if_neg (by rw [h]; decide)]

theorem updOrder_absent (req : TRequest) (qo : TQueryOptions) (h : req.order = "") :
    updOrder req qo = { qo with Descending := false } := by
  unfold updOrder
  rw [if_neg (by rw [h]; decide)]

theorem updSortBy_absent (req : TRequest) (qo : TQueryOptions) (h : req.sortby = "") :
    updSortBy req qo = { qo with SortBy := qoSortByAcquisition } := by
  unfold updSortBy
  rw [if_neg (by rw [h]; decide)]

theorem updVirtLib_absent (vll : String → Option String) (req : TRequest)
    (qo : TQueryOptions) (h : req.virtlib = "") :
    updVirtLib vll req qo = { qo with VirtLib := "" } := by
  unfold updVirtLib
  rw [if_neg (by rw [h]; decide)]

theorem updVirtLib_id_ls (vll : String → Option String) (req : TRequest)
    (qo : TQueryOptions) :
    ((updVirtLib vll req qo).ID = qo.ID ∨ (updVirtLib vll req qo).ID = 0) ∧
    ((updVirtLib vll req qo).LimitStart = qo.LimitStart ∨
      (updVirtLib vll req qo).LimitStart = 0) := by
  unfold updVirtLib
  dsimp only
  repeat' split
  all_goals constructor
  all_goals first | (left; rfl) | (right; rfl)

theorem Update_matching_changed (vll : String → Option String) (req : TRequest)
    (qo : TQueryOptions) (h1 : req.matching ≠ "") (h2 : req.matching ≠ qo.Matching) :
    (Update vll req qo).LimitStart = 0 ∧ (Update vll req qo).ID = 0 ∧
    (req.virtlib = "" → (Update vll req qo).Entity = qo.Entity) := by
  unfold Update
  obtain ⟨e1, i1, m1, l1, v1⟩ := updGuiLang_keeps req qo
  obtain ⟨e2, i2, m2, l2, v2⟩ := updLayout_keeps req (updGuiLang req qo)
  obtain ⟨e3, i3, m3, v3⟩ := updLimitLength_keeps req (updLayout req (updGuiLang req qo))
  set s3 := updLimitLength req (updLayout req (updGuiLang req qo)) with hs3
  have hm3 : req.matching ≠ s3.Matching := by
    rw [m3, m2, m1]; exact h2
  rw [updMatching_set req s3 h1 hm3]
  set s4 : TQueryOptions :=
    { s3 with ID := 0, Matching := req.matching, LimitStart := 0, VirtLib := "" } with hs4
  obtain ⟨e5, i5, m5, v5⟩ := updOrder_keeps req s4
  have l5 := updOrder_ls req s4
  set s5 := updOrder req s4 with hs5
  obtain ⟨e6, i6, m6, v6⟩ := updSortBy_keeps req s5
  have l6 := updSortBy_ls req s5
  set s6 := updSortBy req s5 with hs6
  obtain ⟨e7, i7, m7, l7, v7⟩ := updTheme_keeps req s6
  set s7 := updTheme req s6 with hs7
  have hls7 : s7.LimitStart = 0 := by
    rw [l7]
    rcases l6 with h | h <;> rw [h]
    rcases l5 with h' | h' <;> rw [h']
  have hid7 : s7.ID = 0 := by
    rw [i7, i6, i5]
  obtain ⟨hid8, hls8⟩ := updVirtLib_id_ls vll req s7
  refine ⟨?_, ?_, ?_⟩
  · rcases hls8 with h | h <;> rw [h]
    exact hls7
  · rcases hid8 with h | h <;> rw [h]
    exact hid7
  · intro hv
    rw [updVirtLib_absent vll req s7 hv]
    show s7.Entity = qo.Entity
    rw [e7, e6, e5]
    show s3.Entity = qo.Entity
    rw [e3, e2, e1]

theorem Update_matching_absent (vll : String → Option String) (req : TRequest)
    (qo : TQueryOptions) (hm : req.matching = "") (hll : req.limitlength = "")
    (ho : req.order = "") (hs : req.sortby = "") (hv : req.virtlib = "") :
    (Update vll req qo).Entity = "" ∧ (Update vll req qo).ID = 0 ∧
    (Update vll req qo).Matching = "" ∧
    (Update vll req qo).LimitStart = qo.LimitStart := by
  unfold Update
  obtain ⟨e1, i1, m1, l1, v1⟩ := updGuiLang_keeps req qo
  obtain ⟨e2, i2, m2, l2, v2⟩ := updLayout_keeps req (updGuiLang req qo)
  rw [updLimitLength_absent req _ hll]
  set s2 := updLayout req (updGuiLang req qo) with hs2
  rw [updMatching_absent req s2 hm]
  set s4 : TQueryOptions := { s2 with Entity := "", ID := 0, Matching := "" } with hs4
  rw [updOrder_absent req s4 ho]
  set s5 : TQueryOptions := { s4 with Descending := false } with hs5
  rw [updSortBy_absent req s5 hs]
  set s6 : TQueryOptions := { s5 with SortBy := qoSortByAcquisition } with hs6
  obtain ⟨e7, i7, m7, l7, v7⟩ := updTheme_keeps req s6
  rw [updVirtLib_absent vll req (updTheme req s6) hv]
  refine ⟨?_, ?_, ?_, ?_⟩
  · show (updTheme req s6).Entity = ""
    rw [e7, hs6, hs5, hs4]
  · show (updTheme req s6).ID = 0
    rw [i7, hs6, hs5, hs4]
  · show (updTheme req s6).Matching = ""
    rw [m7, hs6, hs5, hs4]
  · show (updTheme req s6).LimitStart = qo.LimitStart
    rw [l7, hs6, hs5, hs4]
    show s2.LimitStart = qo.LimitStart
    rw [hs2, l2, l1]

/-- C1 (counterexample): the round-trip law fails as stated.  The
value `qoSpaceMatch` is produced by `Update` from a request whose
`matching` form value is the string consisting of a space and `x`,
yet scanning its own serialization does not reproduce it, because
`Scan` applies `strings.TrimSpace` to the `Matching` field. -/

theorem C1_roundtrip_cex :
    qoSpaceMatch.Matching = " x" ∧
    Scan qoSpaceMatch (qoString qoSpaceMatch) ≠ qoSpaceMatch := by
  decide

/-- C1 (amended): for every query-options value whose numeric fields
are within their Go widths and whose `Matching` and `VirtLib` fields
are unchanged by `strings.TrimSpace` and differ from the sentinel
`-` (every such value except the white-space-fringed ones is
reachable through `Update`), `Scan` applied to the output of the
serializer reproduces every field exactly, into any receiver;
in particular an empty `VirtLib` round-trips to empty. -/

theorem C1_roundtrip_amended (qo qo0 : TQueryOptions)
    (hID1 : -(2 ^ 63) ≤ qo.ID) (hID2 : qo.ID < 2 ^ 63)
    (hGui : qo.GuiLang < 256) (hLay : qo.Layout < 256)
    (hLL : qo.LimitLength < 2 ^ 64) (hLS : qo.LimitStart < 2 ^ 64)
    (hQC : qo.QueryCount < 2 ^ 64) (hSort : qo.SortBy < 256) (hTheme : qo.Theme < 256)
    (hM : trimChars qo.Matching.data = qo.Matching.data)
    (hV : trimChars qo.VirtLib.data = qo.VirtLib.data)
    (hVd : qo.VirtLib ≠ "-") :
    Scan qo0 (qoString qo) = qo :=
  Scan_qoString qo qo0 hID1 hID2 hGui hLay hLL hLS hQC hSort hTheme hM hV hVd

/-- Witness for C1 (amended): the round trip at a concrete value with
every field populated, scanned into an unrelated receiver. -/

theorem C1_roundtrip_amended_witness :
    Scan ⟨1, true, "x", 2, 3, 4, 5, "m", 6, 7, 8, "v"⟩
      (qoString ⟨24, true, "tag", 1, 0, 24, 48, "hello world", 9, 2, 1, "lib"⟩) =
      ⟨24, true, "tag", 1, 0, 24, 48, "hello world", 9, 2, 1, "lib"⟩ :=
  C1_roundtrip_amended _ _ (by decide) (by decide) (by decide) (by decide) (by decide)
    (by decide) (by decide) (by decide) (by decide) (by decide) (by decide) (by decide)

/-- C8: `IncLimit` adds `LimitLength` to `LimitStart` with no upper
bound check (the Go `uint` addition, exact whenever the sum fits in
64 bits); `DecLimit` clamps at zero: it yields 0 when `LimitStart ≤
LimitLength` and otherwise subtracts, so the result is never
negative; and in the concrete scenario, from `LimitStart = 0`,
`LimitLength = 24`, one `IncLimit` yields 24, a subsequent `DecLimit`
returns to 0, and `DecLimit` at `LimitStart = 0` is a no-op. -/

theorem C8_pagination (qo : TQueryOptions) :
    (qo.LimitStart + qo.LimitLength < 2 ^ 64 →
      (IncLimit qo).LimitStart = qo.LimitStart + qo.LimitLength) ∧
    (DecLimit qo).LimitStart =
      (if qo.LimitStart ≤ qo.LimitLength then 0 else qo.LimitStart - qo.LimitLength) ∧
    (IncLimit qoPage24).LimitStart = 24 ∧
    (DecLimit (IncLimit qoPage24)).LimitStart = 0 ∧
    DecLimit qoPage24 = qoPage24 := by
  refine ⟨?_, ?_, by decide, by decide, by decide⟩
  · intro h
    show (qo.LimitStart + qo.LimitLength) % 2 ^ 64 = qo.LimitStart + qo.LimitLength
    exact Nat.mod_eq_of_lt h
  · unfold DecLimit
    split_ifs <;> first | rfl | omega

/-- Witness for C8: the exact-addition clause discharged at the
scenario value. -/

theorem C8_pagination_witness :
    (IncLimit qoPage24).LimitStart = qoPage24.LimitStart + qoPage24.LimitLength :=
  (C8_pagination qoPage24).1 (by decide)

theorem qoStringChars_ends (qo : TQueryOptions) :
    ∃ front, qoStringChars qo = front ++ (goQuote qo.VirtLib.data ++ ['|']) := by
  refine ⟨'|' :: (intDec qo.ID ++ '|' ::
    (boolChars qo.Descending ++ '|' ::
      (goQuote qo.Entity.data ++ '|' ::
        (natDec qo.GuiLang ++ '|' ::
          (natDec qo.Layout ++ '|' ::
            (natDec qo.LimitLength ++ '|' ::
              (natDec qo.LimitStart ++ '|' ::
                (goQuote qo.Matching.data ++ '|' ::
                  (natDec qo.QueryCount ++ '|' ::
                    (natDec qo.SortBy ++ '|' ::
                      (natDec qo.Theme ++ ['|']))))))))))), ?_⟩
  simp [qoStringChars, List.append_assoc]

/-- C9 (counterexample): the serializer does not encode an empty
`VirtLib` as the character `-`: on the all-zero options value it
produces a quoted empty token, and no `-` occurs anywhere in the
output. -/

theorem C9_sentinel_cex :
    qoString ⟨0, false, "", 0, 0, 0, 0, "", 0, 0, 0, ""⟩ =
      "|0|false|\"\"|0|0|0|0|\"\"|0|0|0|\"\"|" ∧
    '-' ∉ (qoString ⟨0, false, "", 0, 0, 0, 0, "", 0, 0, 0, ""⟩).data := by
  decide

/-- C9 (amended): the serializer encodes an empty `VirtLib` as the
quoted empty token (the two characters `""`, never `-`) in the final
position, and `Scan` decodes a quoted sentinel `"-"` in that position
back to the empty string. -/

theorem C9_sentinel_amended (qo : TQueryOptions) (h : qo.VirtLib = "") :
    (∃ front, qoStringChars qo = front ++ ['"', '"', '|']) ∧
    (Scan ⟨9, true, "e", 1, 1, 2, 3, "m", 4, 5, 6, "v"⟩
        "|0|false|\"\"|0|0|0|0|\"\"|0|0|0|\"-\"|").VirtLib = "" := by
  constructor
  · obtain ⟨front, hf⟩ := qoStringChars_ends qo
    refine ⟨front, ?_⟩
    rw [hf, h]
    rfl
  · decide

/-- Witness for C9 (amended), at the all-zero options value. -/

theorem C9_sentinel_amended_witness :
    (∃ front, qoStringChars ⟨0, false, "", 0, 0, 0, 0, "", 0, 0, 0, ""⟩ =
      front ++ ['"', '"', '|']) ∧
    (Scan ⟨9, true, "e", 1, 1, 2, 3, "m", 4, 5, 6, "v"⟩
        "|0|false|\"\"|0|0|0|0|\"\"|0|0|0|\"-\"|").VirtLib = "" :=
  C9_sentinel_amended ⟨0, false, "", 0, 0, 0, 0, "", 0, 0, 0, ""⟩ rfl

/-- C3 (counterexample): the filter-reset claim fails for `Entity`.
With `LimitStart = 24` and a request whose `matching` value is
non-empty and differs from the current `Matching`, `Update` leaves
`Entity` untouched (still `tag`) instead of clearing it. -/

theorem C3_filterReset_cex :
    qoC3cex.LimitStart ≠ 0 ∧ reqC3cex.matching ≠ "" ∧
    reqC3cex.matching ≠ qoC3cex.Matching ∧
    (Update (fun _ => none) reqC3cex qoC3cex).Entity = "tag" ∧
    (Update (fun _ => none) reqC3cex qoC3cex).Entity ≠ "" := by
  decide

/-- C3 (amended): applying via `Update` a request whose `matching`
parameter is non-empty and differs from the current `Matching` resets
`LimitStart` to 0 and clears `ID` to 0, for every virtual-library
lookup; `Entity`, however, is left unchanged whenever the request
carries no `virtlib` parameter (it is not cleared by the matching
branch). -/

theorem C3_filterReset_amended (vll : String → Option String) (req : TRequest)
    (qo : TQueryOptions) (h1 : req.matching ≠ "") (h2 : req.matching ≠ qo.Matching) :
    (Update vll req qo).LimitStart = 0 ∧ (Update vll req qo).ID = 0 ∧
    (req.virtlib = "" → (Update vll req qo).Entity = qo.Entity) :=
  Update_matching_changed vll req qo h1 h2

/-- Witness for C3 (amended) at the counterexample request. -/

theorem C3_filterReset_amended_witness :
    (Update (fun _ => none) reqC3cex qoC3cex).LimitStart = 0 ∧
    (Update (fun _ => none) reqC3cex qoC3cex).ID = 0 ∧
    (reqC3cex.virtlib = "" →
      (Update (fun _ => none) reqC3cex qoC3cex).Entity = qoC3cex.Entity) :=
  C3_filterReset_amended (fun _ => none) reqC3cex qoC3cex (by decide) (by decide)

/-- C10 (counterexample): with the `matching` parameter absent the
clearing branch runs, but `Update` as a whole does not leave
`LimitStart` unchanged: a simultaneous `order` change resets it to
0. -/

theorem C10_matchingAbsent_cex :
    reqC10cex.matching = "" ∧ qoC10cex.LimitStart = 24 ∧
    (Update (fun _ => none) reqC10cex qoC10cex).LimitStart = 0 := by
  decide

/-- C10 (amended): for every options value and every request whose
`matching` parameter is absent or empty and whose `limitlength`,
`order`, `sortby` and `virtlib` parameters are also absent, `Update`
sets `Entity` to the empty string, `ID` to 0 and `Matching` to the
empty string, and leaves `LimitStart` unchanged. -/

theorem C10_matchingAbsent_amended (vll : String → Option String) (req : TRequest)
    (qo : TQueryOptions) (hm : req.matching = "") (hll : req.limitlength = "")
    (ho : req.order = "") (hs : req.sortby = "") (hv : req.virtlib = "") :
    (Update vll req qo).Entity = "" ∧ (Update vll req qo).ID = 0 ∧
    (Update vll req qo).Matching = "" ∧
    (Update vll req qo).LimitStart = qo.LimitStart :=
  Update_matching_absent vll req qo hm hll ho hs hv

/-- Witness for C10 (amended): an all-absent request leaves the
pagination offset at 24 while clearing the filter fields. -/

theorem C10_matchingAbsent_amended_witness :
    (Update (fun _ => none) ⟨"", "", "", "", "", "", "", ""⟩ qoC10cex).Entity = "" ∧
    (Update (fun _ => none) ⟨"", "", "", "", "", "", "", ""⟩ qoC10cex).ID = 0 ∧
    (Update (fun _ => none) ⟨"", "", "", "", "", "", "", ""⟩ qoC10cex).Matching = "" ∧
    (Update (fun _ => none) ⟨"", "", "", "", "", "", "", ""⟩ qoC10cex).LimitStart =
      qoC10cex.LimitStart :=
  C10_matchingAbsent_amended (fun _ => none) ⟨"", "", "", "", "", "", "", ""⟩ qoC10cex
    rfl rfl rfl rfl rfl

theorem having_known (e : String) (i : Int) (he : e.length ≠ 0) (ha : e ≠ "all")
    (hi : i ≠ 0) : having e i = sprintfD (quHaving e) i := by
  unfold having
  rw [if_neg]
  rintro (h | h | h)
  exacts [he h, ha h, hi h]

/-- C2 (counterexample): the spec's table keys do not match the code.
For the spec names `author`, `lang` and `tag` with a non-zero id,
`having` hits a missing map key, and `fmt.Sprintf` on the resulting
empty format with one argument returns the artifact
`%!(EXTRA int=5)` — neither a JOIN fragment nor the empty string.
The same happens for arbitrary unknown names, so unknown names are
not a silent no-op either. -/

theorem C2_having_cex :
    having "author" 5 = "%!(EXTRA int=5)" ∧
    having "lang" 5 = "%!(EXTRA int=5)" ∧
    having "tag" 5 = "%!(EXTRA int=5)" ∧
    having "bogus" 5 = "%!(EXTRA int=5)" ∧
    having "author" 5 ≠ "" := by
  decide

/-- C2 (amended): the fixed table is keyed by `authors`, `format`,
`languages`, `publisher`, `series` and `tags`; each of those with a
non-zero id yields its JOIN-WHERE fragment with the id substituted;
an empty or `all` entity or a zero id yields the empty string (a
silent no-op); and every other entity name with a non-zero id yields
the Sprintf extra-argument artifact `%!(EXTRA int=<id>)`, not an
empty fragment. -/

theorem C2_having_amended (e : String) (i : Int) (hi : i ≠ 0) :
    having "authors" i =
      sqlFrag "JOIN books_authors_link a ON(a.book = b.id) WHERE (a.author = " i ") " ∧
    having "format" i =
      sqlFrag "JOIN data d ON(b.id = d.book) JOIN data dd ON (d.format = dd.format) WHERE (dd.id = " i ") " ∧
    having "languages" i =
      sqlFrag "JOIN books_languages_link l ON(l.book = b.id) WHERE (l.lang_code = " i ") " ∧
    having "publisher" i =
      sqlFrag "JOIN books_publishers_link p ON(p.book = b.id) WHERE (p.publisher = " i ") " ∧
    having "series" i =
      sqlFrag "JOIN books_series_link s ON(s.book = b.id) WHERE (s.series = " i ") " ∧
    having "tags" i =
      sqlFrag "JOIN books_tags_link t ON(t.book = b.id) WHERE (t.tag = " i ") " ∧
    having e 0 = "" ∧ having "" i = "" ∧ having "all" i = "" ∧
    (e ∉ ["", "all", "authors", "format", "languages", "publisher", "series", "tags"] →
      having e i = extraFrag i) := by
  refine ⟨?_, ?_, ?_, ?_, ?_, ?_, ?_, ?_, ?_, ?_⟩
  · rw [having_known _ _ (by decide) (by decide) hi]; rfl
  · rw [having_known _ _ (by decide) (by decide) hi]; rfl
  · rw [having_known _ _ (by decide) (by decide) hi]; rfl
  · rw [having_known _ _ (by decide) (by decide) hi]; rfl
  · rw [having_known _ _ (by decide) (by decide) hi]; rfl
  · rw [having_known _ _ (by decide) (by decide) hi]; rfl
  · unfold having
    rw [if_pos (Or.inr (Or.inr rfl))]
  · unfold having
    rw [if_pos (Or.inl (by decide))]
  · unfold having
    rw [if_pos (Or.inr (Or.inl rfl))]
  · intro hnot
    have hne : ∀ k : String,
        k ∈ ["", "all", "authors", "format", "languages", "publisher", "series", "tags"] →
        e ≠ k := by
      intro k hk he
      exact hnot (he ▸ hk)
    have he0 : e.length ≠ 0 := by
      intro h0
      refine hne "" (by simp) ?_
      rcases e with ⟨l⟩
      cases l with
      | nil => rfl
      | cons c cs => simp [String.length] at h0
    rw [having_known e i he0 (hne "all" (by simp)) hi]
    have hq : quHaving e = "" := by
      unfold quHaving
      rw [if_neg (hne "all" (by simp)), if_neg (hne "authors" (by simp)),
        if_neg (hne "format" (by simp)), if_neg (hne "languages" (by simp)),
        if_neg (hne "publisher" (by simp)), if_neg (hne "series" (by simp)),
        if_neg (hne "tags" (by simp))]
    rw [hq]
    rfl

/-- Witness for C2 (amended) at the unknown entity name `columns`
and id 5. -/

theorem C2_having_amended_witness :
    having "authors" 5 =
      sqlFrag "JOIN books_authors_link a ON(a.book = b.id) WHERE (a.author = " 5 ") " ∧
    having "format" 5 =
      sqlFrag "JOIN data d ON(b.id = d.book) JOIN data dd ON (d.format = dd.format) WHERE (dd.id = " 5 ") " ∧
    having "languages" 5 =
      sqlFrag "JOIN books_languages_link l ON(l.book = b.id) WHERE (l.lang_code = " 5 ") " ∧
    having "publisher" 5 =
      sqlFrag "JOIN books_publishers_link p ON(p.book = b.id) WHERE (p.publisher = " 5 ") " ∧
    having "series" 5 =
      sqlFrag "JOIN books_series_link s ON(s.book = b.id) WHERE (s.series = " 5 ") " ∧
    having "tags" 5 =
      sqlFrag "JOIN books_tags_link t ON(t.book = b.id) WHERE (t.tag = " 5 ") " ∧
    having "columns" 0 = "" ∧ having "" 5 = "" ∧ having "all" 5 = "" ∧
    ("columns" ∉ ["", "all", "authors", "format", "languages", "publisher", "series", "tags"] →
      having "columns" 5 = extraFrag 5) :=
  C2_having_amended "columns" 5 (by decide)

theorem escapeQuery_flatMap (s : List Nat) : escapeQuery s = s.flatMap escByte := by
  induction s with
  | nil => rfl
  | cons c rest ih =>
    by_cases h1 : c = 10 ∨ c = 13 ∨ c = 92 ∨ c = 34
    · simp [escapeQuery, escByte, h1, ih]
    · by_cases h2 : c = 26
      · simp [escapeQuery, escByte, h1, h2, ih]
      · simp [escapeQuery, escByte, h1, h2, ih]

theorem quoteSafeBody_escPair (c : Nat) (l : List Nat) :
    quoteSafeBody (92 :: c :: l) = quoteSafeBody l := rfl

theorem quoteSafeBody_cons (c : Nat) (l : List Nat) (h92 : c ≠ 92) (h34 : c ≠ 34) :
    quoteSafeBody (c :: l) = quoteSafeBody l := by
  conv_lhs => rw [quoteSafeBody.eq_def]
  dsimp only
  rw [if_neg h92, if_neg h34]

theorem quoteSafeBody_escapeQuery (s : List Nat) : quoteSafeBody (escapeQuery s) = true := by
  induction s with
  | nil => rfl
  | cons c rest ih =>
    by_cases h1 : c = 10 ∨ c = 13 ∨ c = 92 ∨ c = 34
    · rw [show escapeQuery (c :: rest) = 92 :: c :: escapeQuery rest from by
        simp [escapeQuery, h1]]
      rw [quoteSafeBody_escPair]
      exact ih
    · by_cases h2 : c = 26
      · rw [show escapeQuery (c :: rest) = 92 :: 90 :: escapeQuery rest from by
          simp [escapeQuery, h1, h2]]
        rw [quoteSafeBody_escPair]
        exact ih
      · rw [show escapeQuery (c :: rest) = c :: escapeQuery rest from by
          simp [escapeQuery, h1, h2]]
        have hc92 : c ≠ 92 := fun h => h1 (by simp [h])
        have hc34 : c ≠ 34 := fun h => h1 (by simp [h])
        rw [quoteSafeBody_cons c _ hc92 hc34]
        exact ih

theorem ctrlZ_not_escByte (c : Nat) : 26 ∉ escByte c := by
  unfold escByte
  split_ifs with h1 h2
  · rcases h1 with h | h | h | h <;> (subst h; decide)
  · subst h2
    decide
  · simp only [List.mem_singleton]
    omega

theorem ctrlZ_not_in_escapeQuery (s : List Nat) : 26 ∉ escapeQuery s := by
  rw [escapeQuery_flatMap]
  simp only [List.mem_flatMap]
  rintro ⟨a, -, hmem⟩
  exact ctrlZ_not_escByte a hmem

/-- C7: `escapeQuery` realizes the per-byte table `escByte` — each
newline, carriage return, backslash and double quote is emitted with
a backslash prefix, each Ctrl-Z byte is replaced by a backslash and a
literal `Z`, and every other byte (the apostrophe, 39, included) is
copied unchanged — the output contains no Ctrl-Z, and re-embedding
the output inside a double-quoted SQL literal cannot terminate the
literal early: a quoted-literal reader never meets an unescaped
double quote in it. -/

theorem C7_escapeQuery (s : List Nat) :
    escapeQuery s = s.flatMap escByte ∧
    quoteSafeBody (escapeQuery s) = true ∧
    26 ∉ escapeQuery s ∧
    escByte 39 = [39] ∧ escByte 26 = [92, 90] ∧ escByte 34 = [92, 34] :=
  ⟨escapeQuery_flatMap s, quoteSafeBody_escapeQuery s, ctrlZ_not_in_escapeQuery s,
    by decide, by decide, by decide⟩

/-- C6: the decoder is total by construction (it returns a plain
list, the `Atoi` error being discarded), and on the three contract
inputs: decoding `Name|7` yields exactly the one record with id 7 and
name `Name`; decoding `Name|notanumber` yields the one record with
the unparsable id coerced to 0; decoding the empty string yields the
empty sequence. -/

theorem C6_prepAuthors :
    (∀ s : String, ∃ l : List TEntity, prepAuthors s = l) ∧
    prepAuthors "Name|7" = [⟨7, "Name", ""⟩] ∧
    prepAuthors "Name|notanumber" = [⟨0, "Name", ""⟩] ∧
    prepAuthors "" = [] :=
  ⟨fun s => ⟨prepAuthors s, rfl⟩, by decide, by decide, by decide⟩

/-- C5: when the count query yields zero matches, `QueryBy` returns
count 0, no document list and no error (success), while `QuerySearch`
returns count 0, no list and the non-nil error `No documents found`;
and in both operations the detail query is executed only when the
count is positive. -/

theorem C5_empty_asymmetry (st : TStoreModel) (opts : TQueryOptions)
    (h : countScan st = 0) :
    QueryBy st opts = (0, none, none, false) ∧
    QuerySearch st opts = (0, none, some "No documents found", false) ∧
    (∀ (st' : TStoreModel) (opts' : TQueryOptions),
      (QueryBy st' opts').2.2.2 = true → 0 < countScan st') ∧
    (∀ (st' : TStoreModel) (opts' : TQueryOptions),
      (QuerySearch st' opts').2.2.2 = true → 0 < countScan st') := by
  refine ⟨?_, ?_, ?_, ?_⟩
  · unfold QueryBy
    rw [h]
    rfl
  · unfold QuerySearch
    rw [h]
    rfl
  · intro st' opts' hex
    by_cases hc : 0 < countScan st'
    · exact hc
    · exfalso
      unfold QueryBy at hex
      rw [if_neg hc] at hex
      exact Bool.false_ne_true hex
  · intro st' opts' hex
    by_cases hc : 0 < countScan st'
    · exact hc
    · exfalso
      unfold QuerySearch at hex
      rw [if_neg hc] at hex
      exact Bool.false_ne_true hex

/-- Witness for C5: a store whose count query returns one row holding
0 and whose detail query would succeed with no documents. -/

theorem C5_empty_asymmetry_witness :
    QueryBy ⟨some [0], Except.ok []⟩ qoPage24 = (0, none, none, false) ∧
    QuerySearch ⟨some [0], Except.ok []⟩ qoPage24 =
      (0, none, some "No documents found", false) ∧
    (∀ (st' : TStoreModel) (opts' : TQueryOptions),
      (QueryBy st' opts').2.2.2 = true → 0 < countScan st') ∧
    (∀ (st' : TStoreModel) (opts' : TQueryOptions),
      (QuerySearch st' opts').2.2.2 = true → 0 < countScan st') :=
  C5_empty_asymmetry ⟨some [0], Except.ok []⟩ qoPage24 rfl
